import Mathlib

/-!
Verification of the duoauthproxy protocol-client core: the ldaptor LDAP
client (`ldapclient.py`), the RADIUS client module (`radius_client.py`)
and the md4 digest (`md4.py`), shallowly embedded in Lean.

Bytes are modelled as `Nat` (every byte sequence is a `List Nat`), machine
words as `Nat` reduced modulo `2 ^ 32` where the source masks.
-/

namespace DuoLdap

/-- A decoded LDAP frame as the frame decoder produces it: a tag and a
payload.  The id/value/controls structure of full messages is modelled
separately for dispatch. -/
structure RawFrame where
  tag : Nat
  payload : List Nat
  deriving Repr, DecidableEq

/-- Modelled from the spec: `pureber.berDecodeObject` is not under `src/`;
the spec describes it as cutting one complete BER tag-length-value frame
from the front of the buffer, reporting "insufficient data" (here `none`)
when the buffer holds only an incomplete frame.  Short definite-length
form: one tag byte, one length byte, then that many payload bytes.
Returns the decoded frame and the number of bytes consumed. -/
def berDecodeObject (buf : List Nat) : Option (RawFrame × Nat) :=
  match buf with
  | t :: l :: rest =>
      if l ≤ rest.length then some (⟨t, rest.take l⟩, l + 2) else none
  | _ => none

/-- The `while 1` loop body of `LDAPClient.dataReceived`: repeatedly decode
one object from the front of the buffer; on insufficient data keep the
buffer and stop.  Returns the retained buffer and the frames handled, in
order. -/
def decodeAll (buf : List Nat) : List Nat × List RawFrame :=
  match h : berDecodeObject buf with
  | none => (buf, [])
  | some (o, n) =>
      let r := decodeAll (buf.drop n)
      (r.1, o :: r.2)
termination_by buf.length
decreasing_by
  unfold berDecodeObject at h
  rcases buf with _ | ⟨t, buf⟩
  · simp at h
  · rcases buf with _ | ⟨l, rest⟩
    · simp at h
    · simp only at h
      split at h
      · simp only [Option.some.injEq, Prod.mk.injEq] at h
        obtain ⟨-, rfl⟩ := h
        simp only [List.length_drop, List.length_cons]
        omega
      · simp at h

/-- `LDAPClient.dataReceived`: append the received bytes to the buffer and
run the decode loop. -/
def dataReceived (buffer recd : List Nat) : List Nat × List RawFrame :=
  decodeAll (buffer ++ recd)

/-- Feed a sequence of byte chunks one delivery at a time, threading the
retained buffer, collecting all frames in order. -/
def feedChunks (buffer : List Nat) : List (List Nat) → List Nat × List RawFrame
  | [] => (buffer, [])
  | c :: cs =>
      let r := dataReceived buffer c
      let s := feedChunks r.1 cs
      (s.1, r.2 ++ s.2)

/-- The wire encoding one frame: tag byte, length byte, payload. -/
def encodeFrame (f : RawFrame) : List Nat :=
  f.tag :: f.payload.length :: f.payload

/-- The wire encoding of a sequence of complete frames. -/
def encodeFrames (fs : List RawFrame) : List Nat :=
  (fs.map encodeFrame).flatten

/-- An abstract LDAP response value (`msg.value`). -/
abbrev LDAPValue := Nat

/-- An abstract LDAP control. -/
abbrev Control := Nat

/-- An abstract failure reason (the `reason` of `connectionLost`). -/
abbrev Reason := Nat

/-- An `LDAPMessage` as `handle` sees it: id, value and controls. -/
structure Message where
  id : Nat
  value : LDAPValue
  controls : List Control
  deriving Repr, DecidableEq

/-- A response handler as registered by `send`: it receives the response
value, and the controls of the message exactly when the entry was registered
with `return_controls` (otherwise it is called without them, modelled as
`none`); it returns whether this was the final response. -/
abbrev HandlerFn := LDAPValue → Option (List Control) → Bool

/-- One entry of `self.onwire`: the tuple `(d, return_controls, handler,
args, kwargs)`.  The deferred `d` is identified by the message id of the entry;
`args`/`kwargs` are absorbed into the handler closure (the source only
ever stores `[], {}` alongside a handler and `None, None` without one). -/
structure Entry where
  return_controls : Bool
  handler : Option HandlerFn

/-- An observable resolution payload of a deferred. -/
inductive Payload where
  | value (v : LDAPValue)
  | valueControls (v : LDAPValue) (cs : List Control)
  | empty
  deriving Repr, DecidableEq

/-- Observable effects of the client: deferred resolutions, handler
invocations, the unsolicited-notification hook. -/
inductive Event where
  | callback (id : Nat) (p : Payload)
  | errback (id : Nat) (reason : Reason)
  | unsolicited (v : LDAPValue)
  | handlerCall (id : Nat) (v : LDAPValue) (cs : Option (List Control)) (final : Bool)
  deriving DecidableEq

/-- The errors `handle`, `_send` and `_startTLS` can raise. -/
inductive ClientError where
  | keyError
  | connectionLostError
  | assertionError
  | startTLSBusy (onwire : List (Nat × Entry))

/-- The mutable state of one `LDAPClient`: `self.connected`,
`self.onwire` (an insertion-ordered id-to-entry table) and the id the
next outgoing `LDAPMessage` receives (ids are allocated by `pureldap`
outside the sources of this file; the spec requires a fresh unused id). -/
structure ClientState where
  connected : Bool
  onwire : List (Nat × Entry)
  nextId : Nat

/-- `del self.onwire[id]`. -/
def eraseId (t : List (Nat × Entry)) (i : Nat) : List (Nat × Entry) :=
  t.filter (fun p => p.1 ≠ i)

/-- `LDAPClient.handle`: dispatch one decoded message.  Id `0` goes to the
unsolicited-notification hook; otherwise the table entry is looked up
(a missing id raises `KeyError`).  Without a handler the deferred is
resolved with the value (with controls when `return_controls`) and the
entry deleted; with a handler the handler is invoked and, only when it
returns true, the entry is deleted and the deferred resolved with no
payload. -/
def handle (t : List (Nat × Entry)) (msg : Message) :
    Except ClientError (List (Nat × Entry) × List Event) :=
  if msg.id = 0 then
    .ok (t, [.unsolicited msg.value])
  else
    match t.lookup msg.id with
    | none => .error .keyError
    | some e =>
        match e.handler with
        | none =>
            if e.return_controls then
              .ok (eraseId t msg.id,
                [.callback msg.id (.valueControls msg.value msg.controls)])
            else
              .ok (eraseId t msg.id, [.callback msg.id (.value msg.value)])
        | some h =>
            if e.return_controls then
              if h msg.value (some msg.controls) then
                .ok (eraseId t msg.id,
                  [.handlerCall msg.id msg.value (some msg.controls) true,
                   .callback msg.id .empty])
              else
                .ok (t, [.handlerCall msg.id msg.value (some msg.controls) false])
            else
              if h msg.value none then
                .ok (eraseId t msg.id,
                  [.handlerCall msg.id msg.value none true,
                   .callback msg.id .empty])
              else
                .ok (t, [.handlerCall msg.id msg.value none false])

/-- The onwire table after `handle`; when `handle` raises, the exception
propagates before any mutation, so the table is unchanged. -/
def handleState (t : List (Nat × Entry)) (msg : Message) : List (Nat × Entry) :=
  match handle t msg with
  | .ok (t2, _) => t2
  | .error _ => t

/-- An outgoing LDAP operation as `send` needs it. -/
structure Op where
  needs_answer : Bool
  tag : Nat

/-- `LDAPClient.send`: raise if not connected (`_send`), assert the id is
unused and the op needs an answer, register `(d, return_controls,
handler, ...)` under the fresh message id, and return the new state and
the registered id (standing for the returned deferred). -/
def send (s : ClientState) (op : Op) (handler : Option HandlerFn)
    (return_controls : Bool) : Except ClientError (ClientState × Nat) :=
  if ¬ s.connected then .error .connectionLostError
  else if (s.onwire.lookup s.nextId).isSome then .error .assertionError
  else if ¬ op.needs_answer then .error .assertionError
  else
    .ok ({ connected := s.connected,
           onwire := s.onwire ++ [(s.nextId, ⟨return_controls, handler⟩)],
           nextId := s.nextId + 1 },
         s.nextId)

/-- `LDAPClient.connectionLost`: set `connected = 0`, then `popitem` every
entry (LIFO) and errback its deferred with the reason. -/
def connectionLost (s : ClientState) (reason : Reason) : ClientState × List Event :=
  ({ connected := false, onwire := [], nextId := s.nextId },
   s.onwire.reverse.map (fun p => .errback p.1 reason))

/-- The outcome of `LDAPClient._startTLS`. -/
inductive StartTLSOutcome where
  | connLostError
  | busyError (onwire : List (Nat × Entry))
  | proceeded (r : Except ClientError (ClientState × Nat))

/-- The `LDAPStartTLSRequest` operation (an extended request that needs an
answer). -/
def startTLSOp : Op := ⟨true, 23⟩

/-- `LDAPClient._startTLS`: raise if not connected; raise
`LDAPStartTLSBusyError(self.onwire)` if any operation is on the wire;
otherwise send the STARTTLS request (with no handler, `return_controls`
false). -/
def ldapStartTLS (s : ClientState) : StartTLSOutcome :=
  if ¬ s.connected then .connLostError
  else if s.onwire.isEmpty then .proceeded (send s startTLSOp none false)
  else .busyError s.onwire

/-- The client state after `_startTLS`; on either raise, nothing was
mutated. -/
def startTLSState (s : ClientState) : ClientState :=
  match ldapStartTLS s with
  | .proceeded (.ok (s2, _)) => s2
  | _ => s

/-- An `LDAPExtendedResponse` as `_cbStartTLS` inspects it. -/
structure ExtendedResponse where
  resultCode : Nat
  errorMessage : String
  responseName : Option String

/-- `ldaperrors.Success.resultCode`. -/
def successResultCode : Nat := 0

/-- `pureldap.LDAPStartTLSResponse.oid`. -/
def startTLSOid : String := "1.3.6.1.4.1.1466.20037"

/-- What `_cbStartTLS` does with the response. -/
inductive TLSCbOutcome where
  | raiseMapped (code : Nat) (msg : String)
  | raiseInvalidResponseName (n : String)
  | transportStartTLS
  deriving Repr, DecidableEq

/-- `LDAPClient._cbStartTLS`: raise the error mapped from a non-success
result code; raise `LDAPStartTLSInvalidResponseName` when a responseName
is present and differs from the STARTTLS oid; only then call
`self.transport.startTLS(ctx)`. -/
def cbStartTLS (m : ExtendedResponse) : TLSCbOutcome :=
  if m.resultCode ≠ successResultCode then .raiseMapped m.resultCode m.errorMessage
  else
    match m.responseName with
    | some n => if n ≠ startTLSOid then .raiseInvalidResponseName n else .transportStartTLS
    | none => .transportStartTLS

end DuoLdap

namespace DuoRadius

/-- `pyrad.packet.AccessAccept`. -/
def AccessAccept : Nat := 2

/-- `pyrad.packet.AccessReject`. -/
def AccessReject : Nat := 3

/-- A RADIUS response packet as the module inspects it: its code and its
attributes as name/value pairs (`dict(response_packet)` iterates the
attribute names). -/
structure RadiusPacket where
  code : Nat
  attrs : List (String × Nat)
  deriving Repr, DecidableEq

/-- Modelled from the spec: `MS_CHAP2_RESPONSE_ATTRS`
(`duoauthproxy.lib.radius.base`) is not under `src/`; the spec describes
it as the fixed set of MS-CHAPv2 response attributes that are always
passed through. -/
def MS_CHAP2_RESPONSE_ATTRS : List String :=
  ["MS-CHAP2-Success", "MS-CHAP-Error"]

/-- The normalized authentication result; only the attribute selection is
in scope here. -/
structure AuthResult where
  radius_attrs : List (String × Nat)
  deriving Repr, DecidableEq

/-- Modelled from the spec: `AuthResult.from_radius_packet`
(`duoauthproxy.lib.base`) is not under `src/`; the spec describes it as
copying into the result exactly the response attributes whose names are
in the given pass-through list. -/
def fromRadiusPacket (p : RadiusPacket) (names : List String) : AuthResult :=
  ⟨p.attrs.filter (fun a => names.contains a.1)⟩

/-- The pass-through configuration of the module. -/
structure ModuleConfig where
  pass_through_attr_names : List String
  pass_through_all : Bool

/-- The response half of `Module.authenticate`, from the point the
protocol layer hands back `response_packet`: raise `PacketError` unless
the code is Access-Accept or Access-Reject; select the pass-through
names (everything when `pass_through_all`, else the configured allow
list plus the MS-CHAPv2 response attributes); build the `AuthResult`. -/
def authenticateResult (cfg : ModuleConfig) (p : RadiusPacket) :
    Except String AuthResult :=
  if p.code ≠ AccessAccept ∧ p.code ≠ AccessReject then
    .error "response packet is not Access-Accept or Access-Reject"
  else
    let pass_through_attr_names :=
      if cfg.pass_through_all then p.attrs.map Prod.fst
      else cfg.pass_through_attr_names ++ MS_CHAP2_RESPONSE_ATTRS
    .ok (fromRadiusPacket p pass_through_attr_names)

/-- The response half of `Module.radius_proxy`: no code check, every
attribute of the response is passed through. -/
def radiusProxyResult (p : RadiusPacket) : AuthResult :=
  fromRadiusPacket p (p.attrs.map Prod.fst)

end DuoRadius

namespace DuoMd4

/-- `2 ** 32 - 1`. -/
def MASK_32 : Nat := 2 ^ 32 - 1

/-- `F(x, y, z) = (x & y) | (~x & z)`; for `x < 2 ^ 32` the complement
`~x` masked to 32 bits is `x ^^^ MASK_32`. -/
def mdF (x y z : Nat) : Nat := (x &&& y) ||| ((x ^^^ MASK_32) &&& z)

/-- `G(x, y, z) = (x & y) | (x & z) | (y & z)`. -/
def mdG (x y z : Nat) : Nat := (x &&& y) ||| (x &&& z) ||| (y &&& z)

/-- `((t << s) & MASK_32) + (t >> (32 - s))`, the rotate step exactly as
the source writes it. -/
def rotl (t s : Nat) : Nat := ((t <<< s) &&& MASK_32) + (t >>> (32 - s))

/-- One row of a round table: `[abcd k s]` as positions into the state. -/
abbrev Row := Nat × Nat × Nat × Nat × Nat × Nat

/-- Round 1 table. -/
def round1 : List Row :=
  [(0, 1, 2, 3, 0, 3), (3, 0, 1, 2, 1, 7), (2, 3, 0, 1, 2, 11), (1, 2, 3, 0, 3, 19),
   (0, 1, 2, 3, 4, 3), (3, 0, 1, 2, 5, 7), (2, 3, 0, 1, 6, 11), (1, 2, 3, 0, 7, 19),
   (0, 1, 2, 3, 8, 3), (3, 0, 1, 2, 9, 7), (2, 3, 0, 1, 10, 11), (1, 2, 3, 0, 11, 19),
   (0, 1, 2, 3, 12, 3), (3, 0, 1, 2, 13, 7), (2, 3, 0, 1, 14, 11), (1, 2, 3, 0, 15, 19)]

/-- Round 2 table. -/
def round2 : List Row :=
  [(0, 1, 2, 3, 0, 3), (3, 0, 1, 2, 4, 5), (2, 3, 0, 1, 8, 9), (1, 2, 3, 0, 12, 13),
   (0, 1, 2, 3, 1, 3), (3, 0, 1, 2, 5, 5), (2, 3, 0, 1, 9, 9), (1, 2, 3, 0, 13, 13),
   (0, 1, 2, 3, 2, 3), (3, 0, 1, 2, 6, 5), (2, 3, 0, 1, 10, 9), (1, 2, 3, 0, 14, 13),
   (0, 1, 2, 3, 3, 3), (3, 0, 1, 2, 7, 5), (2, 3, 0, 1, 11, 9), (1, 2, 3, 0, 15, 13)]

/-- Round 3 table. -/
def round3 : List Row :=
  [(0, 1, 2, 3, 0, 3), (3, 0, 1, 2, 8, 9), (2, 3, 0, 1, 4, 11), (1, 2, 3, 0, 12, 15),
   (0, 1, 2, 3, 2, 3), (3, 0, 1, 2, 10, 9), (2, 3, 0, 1, 6, 11), (1, 2, 3, 0, 14, 15),
   (0, 1, 2, 3, 1, 3), (3, 0, 1, 2, 9, 9), (2, 3, 0, 1, 5, 11), (1, 2, 3, 0, 13, 15),
   (0, 1, 2, 3, 3, 3), (3, 0, 1, 2, 11, 9), (2, 3, 0, 1, 7, 11), (1, 2, 3, 0, 15, 15)]

/-- Read the 32-bit little-endian word at byte offset `i` of `block`
(`struct.unpack("<16I", block)`). -/
def le32At (block : List Nat) (i : Nat) : Nat :=
  block.getD i 0 + block.getD (i + 1) 0 * 256 + block.getD (i + 2) 0 * 65536 +
    block.getD (i + 3) 0 * 16777216

/-- The 16 words `X` of a 64-byte block. -/
def unpackWords (block : List Nat) : List Nat :=
  (List.range 16).map (fun k => le32At block (4 * k))

/-- Write one 32-bit word as 4 little-endian bytes
(one word of `struct.pack`). -/
def pack32 (w : Nat) : List Nat :=
  [w % 256, w / 256 % 256, w / 65536 % 256, w / 16777216 % 256]

/-- One round-1 step on the state. -/
def step1 (X : List Nat) (st : List Nat) (r : Row) : List Nat :=
  let (a, b, c, d, k, s) := r
  let t := (st.getD a 0 + mdF (st.getD b 0) (st.getD c 0) (st.getD d 0) +
    X.getD k 0) &&& MASK_32
  st.set a (rotl t s)

/-- One round-2 step on the state. -/
def step2 (X : List Nat) (st : List Nat) (r : Row) : List Nat :=
  let (a, b, c, d, k, s) := r
  let t := (st.getD a 0 + mdG (st.getD b 0) (st.getD c 0) (st.getD d 0) +
    X.getD k 0 + 0x5a827999) &&& MASK_32
  st.set a (rotl t s)

/-- One round-3 step on the state. -/
def step3 (X : List Nat) (st : List Nat) (r : Row) : List Nat :=
  let (a, b, c, d, k, s) := r
  let t := (st.getD a 0 + (st.getD b 0 ^^^ st.getD c 0 ^^^ st.getD d 0) +
    X.getD k 0 + 0x6ed9eba1) &&& MASK_32
  st.set a (rotl t s)

/-- `md4._process`: run the three rounds on a clone of the state, then add
the result back into the original state, masked to 32 bits. -/
def mdProcess (block : List Nat) (state : List Nat) : List Nat :=
  let X := unpackWords block
  let st := round3.foldl (step3 X) (round2.foldl (step2 X) (round1.foldl (step1 X) state))
  (List.range 4).map (fun i => (state.getD i 0 + st.getD i 0) &&& MASK_32)

/-- The mutable fields of the md4 object: `_count`, `_state`, `_buf`. -/
structure Md4 where
  count : Nat
  state : List Nat
  buf : List Nat
  deriving Repr, DecidableEq

/-- `md4.__init__` with no content. -/
def md4Init : Md4 :=
  ⟨0, [0x67452301, 0xefcdab89, 0x98badcfe, 0x10325476], []⟩

/-- The `while True` loop of `md4.update`: process 64-byte chunks from
`content`, incrementing `_count`; the leftover becomes `_buf`. -/
def md4UpdateLoop (count : Nat) (state : List Nat) (content : List Nat) : Md4 :=
  if 64 ≤ content.length then
    md4UpdateLoop (count + 1) (mdProcess (content.take 64) state) (content.drop 64)
  else
    ⟨count, state, content⟩
termination_by content.length
decreasing_by simp only [List.length_drop]; omega

/-- `md4.update`: prepend the leftover buffer and run the loop. -/
def md4Update (h : Md4) (content : List Nat) : Md4 :=
  md4UpdateLoop h.count h.state (h.buf ++ content)

/-- `md4.digest`: back up `_state` to `orig`, build the padded final block
(buf, `0x80`, zero padding to 56 mod 64, 8 length bytes), `_process` it
(in two halves when it is 128 bytes long), pack the digest from the
processed state, then restore `_state = orig`; `_count` and `_buf` are
never assigned.  Returns the digest bytes and the state of the object after
the call. -/
def md4Digest (h : Md4) : List Nat × Md4 :=
  let orig := h.state
  let buf := h.buf
  let msglen := h.count * 512 + buf.length * 8
  let pad := (((119 : Int) - (buf.length : Int)) % 64).toNat
  let block := buf ++ [0x80] ++ List.replicate pad 0 ++
    pack32 (msglen &&& MASK_32) ++ pack32 ((msglen >>> 32) &&& MASK_32)
  let st :=
    if block.length = 128 then mdProcess (block.drop 64) (mdProcess (block.take 64) h.state)
    else mdProcess block h.state
  let out := ((List.range 4).map (fun i => pack32 (st.getD i 0))).flatten
  (out, ⟨h.count, orig, h.buf⟩)

end DuoMd4

namespace DuoLdap

theorem lookup_append_fresh (t : List (Nat × Entry)) (k : Nat) (e : Entry)
    (h : t.lookup k = none) : (t ++ [(k, e)]).lookup k = some e := by
  induction t with
  | nil => simp [List.lookup]
  | cons p t ih =>
      obtain ⟨k2, e2⟩ := p
      by_cases hk : k = k2
      · simp [List.lookup, hk] at h
      · have hb : (k == k2) = false := by simpa using hk
        simp only [List.cons_append, List.lookup, hb] at h ⊢
        exact ih h

theorem lookup_eraseId (t : List (Nat × Entry)) (k : Nat) :
    (eraseId t k).lookup k = none := by
  induction t with
  | nil => simp [eraseId]
  | cons p t ih =>
      obtain ⟨k2, e2⟩ := p
      by_cases hk : k2 = k
      · simpa [eraseId, hk] using ih
      · have hd : (decide (k2 ≠ k)) = true := by simpa using hk
        have hb : (k == k2) = false := by simpa using fun h => hk h.symm
        simp only [eraseId, List.filter, hd, List.lookup, hb] at ih ⊢
        exact ih

end DuoLdap

namespace DuoMd4

/-- C10: `digest` is non-destructive: it leaves `_state`, `_count` and
`_buf` exactly as before the call, so a second `digest` returns the same
16-byte value and an `update` after `digest` behaves as if `digest` had
never been called. -/
theorem md4Digest_nondestructive (h : Md4) (s : List Nat) :
    (md4Digest h).2 = h ∧
    (md4Digest (md4Digest h).2).1 = (md4Digest h).1 ∧
    md4Update (md4Digest h).2 s = md4Update h s ∧
    (md4Digest h).1.length = 16 := by
  have hpost : (md4Digest h).2 = h := rfl
  refine ⟨hpost, by rw [hpost], by rw [hpost], ?_⟩
  show (((List.range 4).map fun i => pack32 _).flatten).length = 16
  simp [List.range_succ, pack32]

end DuoMd4

namespace DuoLdap

/-- C7: `_cbStartTLS` raises the mapped protocol-status error on a
non-success result code, raises the invalid-response-name error on a
success response whose responseName differs from the STARTTLS oid, and
instructs the transport to start TLS exactly when both validations
pass. -/
theorem cbStartTLS_validates (m : ExtendedResponse) :
    (m.resultCode ≠ successResultCode →
      cbStartTLS m = .raiseMapped m.resultCode m.errorMessage) ∧
    (∀ n, m.resultCode = successResultCode → m.responseName = some n →
      n ≠ startTLSOid → cbStartTLS m = .raiseInvalidResponseName n) ∧
    (cbStartTLS m = .transportStartTLS ↔
      m.resultCode = successResultCode ∧
        ∀ n, m.responseName = some n → n = startTLSOid) := by
  unfold cbStartTLS
  rcases m with ⟨code, msg, rn⟩
  by_cases hc : code = successResultCode
  · subst hc
    rcases rn with _ | n
    · simp
    · by_cases hn : n = startTLSOid <;> simp [hn]
  · simp [hc]

/-- Witness for `cbStartTLS_validates`. -/
theorem cbStartTLS_validates_witness :
    cbStartTLS ⟨49, "invalid credentials", none⟩ = .raiseMapped 49 "invalid credentials" ∧
    cbStartTLS ⟨0, "", some "1.2.3"⟩ = .raiseInvalidResponseName "1.2.3" ∧
    cbStartTLS ⟨0, "", some "1.3.6.1.4.1.1466.20037"⟩ = .transportStartTLS :=
  ⟨(cbStartTLS_validates ⟨49, "invalid credentials", none⟩).1 (by decide),
   (cbStartTLS_validates ⟨0, "", some "1.2.3"⟩).2.1 "1.2.3" rfl rfl (by decide),
   (cbStartTLS_validates ⟨0, "", some "1.3.6.1.4.1.1466.20037"⟩).2.2.mpr
     ⟨rfl, fun n hn => by simpa [startTLSOid] using hn.symm⟩⟩

/-- C6: `_startTLS` on a connected client with at least one operation on
the wire raises `LDAPStartTLSBusyError` carrying the onwire snapshot and
leaves the client state unchanged: still connected, not upgraded, the
table untouched. -/
theorem startTLS_busy (s : ClientState) (hconn : s.connected = true)
    (hbusy : s.onwire ≠ []) :
    ldapStartTLS s = .busyError s.onwire ∧ startTLSState s = s ∧
      (startTLSState s).connected = true ∧ (startTLSState s).onwire = s.onwire := by
  have hne : s.onwire.isEmpty = false := by
    simpa [List.isEmpty_iff] using hbusy
  have h1 : ldapStartTLS s = .busyError s.onwire := by
    simp [ldapStartTLS, hconn, hne]
  have h2 : startTLSState s = s := by
    simp [startTLSState, h1]
  exact ⟨h1, h2, by rw [h2, hconn], by rw [h2]⟩

/-- Witness for `startTLS_busy`. -/
theorem startTLS_busy_witness :
    ldapStartTLS ⟨true, [(7, ⟨false, none⟩)], 8⟩ =
      .busyError [(7, ⟨false, none⟩)] ∧
    startTLSState ⟨true, [(7, ⟨false, none⟩)], 8⟩ = ⟨true, [(7, ⟨false, none⟩)], 8⟩ :=
  ⟨(startTLS_busy ⟨true, [(7, ⟨false, none⟩)], 8⟩ rfl (by simp)).1,
   (startTLS_busy ⟨true, [(7, ⟨false, none⟩)], 8⟩ rfl (by simp)).2.1⟩

/-- C9: `handle` on a message whose id is neither 0 nor registered raises
`KeyError` (a protocol-format error surfaced on the connection-failure
path): no deferred is resolved and the table is untouched. -/
theorem handle_unknown_id (t : List (Nat × Entry)) (msg : Message)
    (h0 : msg.id ≠ 0) (hl : t.lookup msg.id = none) :
    handle t msg = .error .keyError ∧ handleState t msg = t := by
  have h1 : handle t msg = .error .keyError := by
    simp [handle, h0, hl]
  exact ⟨h1, by simp [handleState, h1]⟩

/-- Witness for `handle_unknown_id`. -/
theorem handle_unknown_id_witness :
    handle [(5, ⟨false, none⟩)] ⟨7, 1, []⟩ = .error .keyError ∧
    handleState [(5, ⟨false, none⟩)] ⟨7, 1, []⟩ = [(5, ⟨false, none⟩)] :=
  handle_unknown_id [(5, ⟨false, none⟩)] ⟨7, 1, []⟩ (by decide) rfl

/-- C2: an operation registered by `send` with no handler is fully
completed by the first response with its id: its deferred is resolved
with the response value (paired with the controls when `return_controls`
was requested) and the id is removed from the table. -/
theorem send_then_handle_resolves (s : ClientState) (op : Op) (rc : Bool)
    (v : LDAPValue) (cs : List Control) (s2 : ClientState) (i : Nat)
    (hsend : send s op none rc = .ok (s2, i)) (hi : i ≠ 0) :
    s2.onwire.lookup i = some ⟨rc, none⟩ ∧
    handle s2.onwire ⟨i, v, cs⟩ =
      .ok (eraseId s2.onwire i,
        [.callback i (if rc then .valueControls v cs else .value v)]) ∧
    (handleState s2.onwire ⟨i, v, cs⟩).lookup i = none := by
  unfold send at hsend
  split at hsend
  · exact absurd hsend (by simp)
  · split at hsend
    · exact absurd hsend (by simp)
    · split at hsend
      · exact absurd hsend (by simp)
      · rename_i hconn hfresh hans
        simp only [Except.ok.injEq, Prod.mk.injEq] at hsend
        obtain ⟨rfl, rfl⟩ := hsend
        have hnone : s.onwire.lookup s.nextId = none := by
          rcases hx : s.onwire.lookup s.nextId with _ | e
          · rfl
          · exact absurd (by simp [hx]) hfresh
        have hlk : (s.onwire ++ [(s.nextId, (⟨rc, none⟩ : Entry))]).lookup s.nextId =
            some ⟨rc, none⟩ :=
          lookup_append_fresh s.onwire s.nextId ⟨rc, none⟩ hnone
        refine ⟨hlk, ?_, ?_⟩
        · cases rc <;> simp [handle, hi, hlk]
        · have hh : handle (s.onwire ++ [(s.nextId, (⟨rc, none⟩ : Entry))]) ⟨s.nextId, v, cs⟩ =
              .ok (eraseId (s.onwire ++ [(s.nextId, ⟨rc, none⟩)]) s.nextId,
                [.callback s.nextId (if rc then .valueControls v cs else .value v)]) := by
            cases rc <;> simp [handle, hi, hlk]
          simp only [handleState, hh]
          exact lookup_eraseId _ _

/-- Witness for `send_then_handle_resolves`. -/
theorem send_then_handle_resolves_witness :
    (⟨true, [(7, ⟨true, none⟩)], 8⟩ : ClientState).onwire.lookup 7 =
      some ⟨true, none⟩ ∧
    handle [(7, ⟨true, none⟩)] ⟨7, 11, [3]⟩ =
      .ok ([], [.callback 7 (.valueControls 11 [3])]) ∧
    (handleState [(7, ⟨true, none⟩)] ⟨7, 11, [3]⟩).lookup 7 = none := by
  have H := send_then_handle_resolves ⟨true, [], 7⟩ ⟨true, 0⟩ true 11 [3]
    ⟨true, [(7, ⟨true, none⟩)], 8⟩ 7 rfl (by decide)
  simpa [eraseId] using H

/-- C4: for an operation registered with a streaming handler, each
response with its id invokes the handler (with the controls exactly when
`return_controls`); when the handler returns false the entry stays and
the deferred is not resolved, and on the first true the entry is removed
and the deferred resolves with no payload. -/
theorem handle_streaming (t : List (Nat × Entry)) (i : Nat) (rc : Bool)
    (hf : HandlerFn) (v : LDAPValue) (cs : List Control)
    (hi : i ≠ 0) (hl : t.lookup i = some ⟨rc, some hf⟩) :
    (hf v (if rc then some cs else none) = false →
      handle t ⟨i, v, cs⟩ =
        .ok (t, [.handlerCall i v (if rc then some cs else none) false])) ∧
    (hf v (if rc then some cs else none) = true →
      handle t ⟨i, v, cs⟩ =
        .ok (eraseId t i,
          [.handlerCall i v (if rc then some cs else none) true,
           .callback i .empty]) ∧
      (eraseId t i).lookup i = none) := by
  constructor
  · intro hfin
    cases rc <;> simp_all [handle, hi, hl]
  · intro hfin
    refine ⟨?_, lookup_eraseId t i⟩
    cases rc <;> simp_all [handle, hi, hl]

/-- Witness for `handle_streaming`: a handler that is final only on value
3 leaves the entry after a non-final response and completes on the final
one. -/
theorem handle_streaming_witness :
    handle [(7, ⟨false, some (fun v _ => v == 3)⟩)] ⟨7, 1, []⟩ =
      .ok ([(7, ⟨false, some (fun v _ => v == 3)⟩)], [.handlerCall 7 1 none false]) ∧
    handle [(7, ⟨false, some (fun v _ => v == 3)⟩)] ⟨7, 3, []⟩ =
      .ok ([], [.handlerCall 7 3 none true, .callback 7 .empty]) := by
  have H1 := (handle_streaming [(7, ⟨false, some (fun v _ => v == 3)⟩)] 7 false
    (fun v _ => v == 3) 1 [] (by decide) rfl).1 rfl
  have H2 := (handle_streaming [(7, ⟨false, some (fun v _ => v == 3)⟩)] 7 false
    (fun v _ => v == 3) 3 [] (by decide) rfl).2 rfl
  exact ⟨H1, by simpa [eraseId] using H2.1⟩

/-- C3: `connectionLost` resolves every registered deferred exactly once
with a connection-lost failure carrying the reason, leaves the table
empty, and a second call performs no resolutions. -/
theorem connectionLost_failAll (s : ClientState) (reason : Reason)
    (hnd : (s.onwire.map Prod.fst).Nodup) :
    (connectionLost s reason).1.onwire = [] ∧
    (connectionLost s reason).1.connected = false ∧
    (connectionLost s reason).2.length = s.onwire.length ∧
    (∀ k ∈ s.onwire.map Prod.fst,
      (connectionLost s reason).2.count (.errback k reason) = 1) ∧
    (connectionLost (connectionLost s reason).1 reason).2 = [] ∧
    (connectionLost (connectionLost s reason).1 reason).1.onwire = [] := by
  refine ⟨rfl, rfl, by simp [connectionLost], ?_, rfl, rfl⟩
  intro k hk
  have hcnt : (s.onwire.reverse.map
      (fun p : Nat × Entry => Event.errback p.1 reason)).count (.errback k reason) =
      (s.onwire.map Prod.fst).count k := by
    simp only [List.count, List.countP_map]
    rw [List.countP_reverse]
    apply List.countP_congr
    intro p _
    by_cases hpk : p.1 = k <;> simp [hpk, Function.comp]
  rw [show (connectionLost s reason).2 = s.onwire.reverse.map
      (fun p : Nat × Entry => Event.errback p.1 reason) from rfl, hcnt]
  exact List.count_eq_one_of_mem hnd hk

/-- Witness for `connectionLost_failAll`. -/
theorem connectionLost_failAll_witness :
    (connectionLost ⟨true, [(7, ⟨false, none⟩), (9, ⟨true, none⟩)], 10⟩ 42).1.onwire = [] ∧
    (connectionLost ⟨true, [(7, ⟨false, none⟩), (9, ⟨true, none⟩)], 10⟩ 42).2.count
      (.errback 7 42) = 1 ∧
    (connectionLost (connectionLost ⟨true, [(7, ⟨false, none⟩), (9, ⟨true, none⟩)], 10⟩
      42).1 42).2 = [] := by
  have H := connectionLost_failAll ⟨true, [(7, ⟨false, none⟩), (9, ⟨true, none⟩)], 10⟩ 42
    (by simp)
  exact ⟨H.1, H.2.2.2.1 7 (by simp), H.2.2.2.2.1⟩

end DuoLdap

namespace DuoRadius

/-- C5: with `pass_through_all` off, `authenticate` selects exactly the
configured allow-list plus the fixed MS-CHAPv2 response attributes, and
the built result contains exactly the response attributes with a
selected name, never any other. -/
theorem authenticate_pass_through_allowlist (cfg : ModuleConfig)
    (p : RadiusPacket) (r : AuthResult)
    (hall : cfg.pass_through_all = false)
    (hcode : p.code = AccessAccept ∨ p.code = AccessReject)
    (hres : authenticateResult cfg p = .ok r) :
    r = fromRadiusPacket p (cfg.pass_through_attr_names ++ MS_CHAP2_RESPONSE_ATTRS) ∧
    ∀ a, a ∈ r.radius_attrs ↔ a ∈ p.attrs ∧
      (a.1 ∈ cfg.pass_through_attr_names ∨ a.1 ∈ MS_CHAP2_RESPONSE_ATTRS) := by
  have hok : ¬ (p.code ≠ AccessAccept ∧ p.code ≠ AccessReject) := by
    rcases hcode with h | h <;> simp [h]
  rw [authenticateResult, if_neg hok, hall] at hres
  simp only [if_false, Except.ok.injEq] at hres
  subst hres
  refine ⟨rfl, fun a => ?_⟩
  simp [fromRadiusPacket, List.mem_filter]

/-- Witness for `authenticate_pass_through_allowlist`: allow-list `{A}`,
response `{A, B}` plus the MS-CHAPv2 attributes; the result keeps exactly
`A` and the MS-CHAPv2 attributes and never `B`. -/
theorem authenticate_pass_through_allowlist_witness :
    (⟨[("A", 1), ("MS-CHAP2-Success", 3), ("MS-CHAP-Error", 4)]⟩ : AuthResult) =
      fromRadiusPacket
        ⟨2, [("A", 1), ("B", 2), ("MS-CHAP2-Success", 3), ("MS-CHAP-Error", 4)]⟩
        (["A"] ++ MS_CHAP2_RESPONSE_ATTRS) ∧
    ¬ ("B", 2) ∈
      (⟨[("A", 1), ("MS-CHAP2-Success", 3), ("MS-CHAP-Error", 4)]⟩ :
        AuthResult).radius_attrs := by
  have H := authenticate_pass_through_allowlist ⟨["A"], false⟩
    ⟨2, [("A", 1), ("B", 2), ("MS-CHAP2-Success", 3), ("MS-CHAP-Error", 4)]⟩
    ⟨[("A", 1), ("MS-CHAP2-Success", 3), ("MS-CHAP-Error", 4)]⟩
    rfl (Or.inl rfl) (by rfl)
  refine ⟨H.1, fun hm => ?_⟩
  have := (H.2 ("B", 2)).mp hm
  simp [MS_CHAP2_RESPONSE_ATTRS] at this

/-- C8 counterexample: a response whose code is Access-Challenge (11),
neither Access-Accept nor Access-Reject, does not fail the proxy/relay
call: `Module.radius_proxy` performs no code check and builds an
`AuthResult` passing every attribute through. -/
theorem radius_proxy_no_code_check_counterexample :
    radiusProxyResult ⟨11, [("X", 5)]⟩ = ⟨[("X", 5)]⟩ := rfl

/-- C8 amended: on the `authenticate` path a response whose code is
neither Access-Accept nor Access-Reject fails immediately with a
`PacketError`; the proxy/relay path performs no code check and always
builds an `AuthResult` that passes every attribute through. -/
theorem radius_code_check_amended (cfg : ModuleConfig) (p : RadiusPacket)
    (h1 : p.code ≠ AccessAccept) (h2 : p.code ≠ AccessReject) :
    authenticateResult cfg p =
      .error "response packet is not Access-Accept or Access-Reject" ∧
    radiusProxyResult p = fromRadiusPacket p (p.attrs.map Prod.fst) := by
  exact ⟨by simp [authenticateResult, h1, h2], rfl⟩

/-- Witness for `radius_code_check_amended`. -/
theorem radius_code_check_amended_witness :
    authenticateResult ⟨["A"], false⟩ ⟨11, [("X", 5)]⟩ =
      .error "response packet is not Access-Accept or Access-Reject" ∧
    radiusProxyResult ⟨11, [("X", 5)]⟩ =
      fromRadiusPacket ⟨11, [("X", 5)]⟩ ([("X", 5)].map Prod.fst) :=
  radius_code_check_amended ⟨["A"], false⟩ ⟨11, [("X", 5)]⟩ (by decide) (by decide)

end DuoRadius

namespace DuoLdap

theorem berDecodeObject_bounds (buf : List Nat) (o : RawFrame) (n : Nat)
    (h : berDecodeObject buf = some (o, n)) : 0 < n ∧ n ≤ buf.length := by
  rcases buf with _ | ⟨t, buf⟩
  · simp [berDecodeObject] at h
  · rcases buf with _ | ⟨l, rest⟩
    · simp [berDecodeObject] at h
    · simp only [berDecodeObject] at h
      split at h
      · rename_i hle
        simp only [Option.some.injEq, Prod.mk.injEq] at h
        obtain ⟨-, rfl⟩ := h
        simp only [List.length_cons]
        omega
      · cases h

theorem berDecodeObject_append (buf extra : List Nat) (o : RawFrame) (n : Nat)
    (h : berDecodeObject buf = some (o, n)) :
    berDecodeObject (buf ++ extra) = some (o, n) ∧
      (buf ++ extra).drop n = buf.drop n ++ extra := by
  rcases buf with _ | ⟨t, buf⟩
  · simp [berDecodeObject] at h
  · rcases buf with _ | ⟨l, rest⟩
    · simp [berDecodeObject] at h
    · simp only [berDecodeObject] at h
      split at h
      · rename_i hle
        simp only [Option.some.injEq, Prod.mk.injEq] at h
        obtain ⟨ho, rfl⟩ := h
        constructor
        · simp only [List.cons_append, berDecodeObject]
          rw [if_pos (by simp only [List.length_append]; omega),
            List.take_append_of_le_length hle, ho]
        · simp only [List.cons_append, List.drop_succ_cons,
            List.drop_append_of_le_length hle]
      · cases h

theorem decodeAll_of_none (buf : List Nat) (h : berDecodeObject buf = none) :
    decodeAll buf = (buf, []) := by
  unfold decodeAll
  split
  · rfl
  · rename_i o n heq
    rw [h] at heq
    cases heq

theorem decodeAll_of_some (buf : List Nat) (o : RawFrame) (n : Nat)
    (h : berDecodeObject buf = some (o, n)) :
    decodeAll buf = ((decodeAll (buf.drop n)).1, o :: (decodeAll (buf.drop n)).2) := by
  conv_lhs => unfold decodeAll
  split
  · rename_i heq
    rw [h] at heq
    cases heq
  · rename_i o2 n2 heq
    rw [h] at heq
    simp only [Option.some.injEq, Prod.mk.injEq] at heq
    obtain ⟨rfl, rfl⟩ := heq
    rfl

theorem decodeAll_residual (buf : List Nat) :
    berDecodeObject (decodeAll buf).1 = none := by
  suffices H : ∀ n buf2, List.length buf2 ≤ n →
      berDecodeObject (decodeAll buf2).1 = none by
    exact H buf.length buf le_rfl
  intro n
  induction n with
  | zero =>
      intro buf2 hl
      have hb : buf2 = [] := by cases buf2 <;> simp_all
      subst hb
      rw [decodeAll_of_none [] rfl]
      rfl
  | succ n ih =>
      intro buf2 hl
      rcases hdec : berDecodeObject buf2 with _ | ⟨o, m⟩
      · rw [decodeAll_of_none _ hdec]
        exact hdec
      · rw [decodeAll_of_some _ _ _ hdec]
        apply ih
        have hb := berDecodeObject_bounds _ _ _ hdec
        simp only [List.length_drop]
        omega

theorem decodeAll_append (buf extra : List Nat) :
    decodeAll (buf ++ extra) =
      ((decodeAll ((decodeAll buf).1 ++ extra)).1,
       (decodeAll buf).2 ++ (decodeAll ((decodeAll buf).1 ++ extra)).2) := by
  suffices H : ∀ n buf2, List.length buf2 ≤ n → ∀ extra2 : List Nat,
      decodeAll (buf2 ++ extra2) =
        ((decodeAll ((decodeAll buf2).1 ++ extra2)).1,
         (decodeAll buf2).2 ++ (decodeAll ((decodeAll buf2).1 ++ extra2)).2) by
    exact H buf.length buf le_rfl extra
  intro n
  induction n with
  | zero =>
      intro buf2 hl extra2
      have hb : buf2 = [] := by cases buf2 <;> simp_all
      subst hb
      rw [decodeAll_of_none [] rfl]
      simp
  | succ n ih =>
      intro buf2 hl extra2
      rcases hdec : berDecodeObject buf2 with _ | ⟨o, m⟩
      · rw [decodeAll_of_none _ hdec]
        simp
      · obtain ⟨hap, hdrop⟩ := berDecodeObject_append buf2 extra2 o m hdec
        have hb := berDecodeObject_bounds _ _ _ hdec
        have hih := ih (buf2.drop m) (by simp only [List.length_drop]; omega) extra2
        rw [decodeAll_of_some _ _ _ hap, hdrop, decodeAll_of_some _ _ _ hdec, hih]
        simp

theorem feedChunks_eq (buffer : List Nat) (chunks : List (List Nat))
    (hres : berDecodeObject buffer = none) :
    feedChunks buffer chunks = decodeAll (buffer ++ chunks.flatten) := by
  induction chunks generalizing buffer with
  | nil =>
      simp only [feedChunks, List.flatten_nil, List.append_nil]
      exact (decodeAll_of_none buffer hres).symm
  | cons c cs ih =>
      simp only [feedChunks, dataReceived, List.flatten_cons]
      rw [ih (decodeAll (buffer ++ c)).1 (decodeAll_residual (buffer ++ c)),
        ← List.append_assoc, decodeAll_append (buffer ++ c) cs.flatten]

theorem decodeAll_encodeFrames (fs : List RawFrame) :
    decodeAll (encodeFrames fs) = ([], fs) := by
  induction fs with
  | nil =>
      rw [show encodeFrames [] = [] from rfl, decodeAll_of_none [] rfl]
  | cons f fs ih =>
      have henc : encodeFrames (f :: fs) =
          f.tag :: f.payload.length :: (f.payload ++ encodeFrames fs) := by
        simp [encodeFrames, encodeFrame]
      have hdec : berDecodeObject (encodeFrames (f :: fs)) =
          some (f, f.payload.length + 2) := by
        rw [henc]
        simp only [berDecodeObject]
        rw [if_pos (by simp only [List.length_append]; omega),
          List.take_append_of_le_length le_rfl, List.take_length]
      have hdrop : (encodeFrames (f :: fs)).drop (f.payload.length + 2) =
          encodeFrames fs := by
        rw [henc]
        simp only [List.drop_succ_cons,
          List.drop_append_of_le_length le_rfl, List.drop_length,
          List.nil_append]
      rw [decodeAll_of_some _ _ _ hdec, hdrop, ih]

/-- C1: feeding any split into chunks of a byte sequence encoding
complete frames through `dataReceived` produces exactly the frames of a
single delivery, with an empty retained buffer; and a buffer holding
only an incomplete frame is retained unchanged, producing no message and
no error. -/
theorem dataReceived_split_invariance (fs : List RawFrame)
    (chunks : List (List Nat)) (henc : chunks.flatten = encodeFrames fs) :
    feedChunks [] chunks = dataReceived [] chunks.flatten ∧
    dataReceived [] chunks.flatten = ([], fs) ∧
    (∀ buffer recd : List Nat, berDecodeObject (buffer ++ recd) = none →
      dataReceived buffer recd = (buffer ++ recd, [])) := by
  refine ⟨?_, ?_, ?_⟩
  · rw [feedChunks_eq [] chunks rfl]
    rfl
  · show decodeAll ([] ++ chunks.flatten) = ([], fs)
    rw [List.nil_append, henc, decodeAll_encodeFrames]
  · intro buffer recd h
    exact decodeAll_of_none _ h

/-- Witness for `dataReceived_split_invariance`: the two frames
`30 02 07 08` and `30 00` delivered in four odd chunks, and an
incomplete buffer `30 02 07` kept intact. -/
theorem dataReceived_split_invariance_witness :
    feedChunks [] [[48], [2, 7], [8, 48], [0]] =
      ([], [⟨48, [7, 8]⟩, ⟨48, []⟩]) ∧
    dataReceived [48, 2] [7] = ([48, 2, 7], []) := by
  have H := dataReceived_split_invariance [⟨48, [7, 8]⟩, ⟨48, []⟩]
    [[48], [2, 7], [8, 48], [0]] rfl
  exact ⟨H.1.trans H.2.1, H.2.2 [48, 2] [7] rfl⟩

end DuoLdap

